import Mathlib

/-!
Shallow embedding of the p2p-file-share node (src/node.js, src/manager.js).

JavaScript numbers that the program uses as sizes and indices are modelled
as `Nat`; `null` becomes `Option.none`; the JS expression `x || null`
applied to a number or string field becomes a normalisation that maps the
falsy values `0` and `""` to `none`.  `Math.ceil(a / b)` with `b = 0` (or
`b = null`) yields `NaN`/`Infinity` in JS, never a usable piece count, and
is modelled as `none`.  Byte buffers are `List Nat`.
-/

namespace P2P

/-- JS `x || null` for an optional number field: `0` and `null` both become `null`. -/
def normNat : Option Nat → Option Nat
  | some 0 => none
  | x => x

/-- JS `x || null` for an optional string field: `""` and `null` both become `null`. -/
def normStr : Option String → Option String
  | some "" => none
  | x => x

/-- `Math.ceil(a / b)` on JS numbers, for `a` the (possibly null, coerced to 0)
numerator and `b` the denominator.  A `null` or `0` denominator gives `NaN`
(or `Infinity`), modelled as `none`. -/
def jsCeilDiv (a : Option Nat) (b : Option Nat) : Option Nat :=
  match b with
  | none => none
  | some 0 => none
  | some (n + 1) => some ((a.getD 0 + n) / (n + 1))

/-! ## Manager.js : the file manager -/

/-- State of `Manager` (manager.js): piece size, whether `fileHandle` is
non-null, the recorded `fileSize` field, and the bytes of the backing file. -/
structure FileMgr where
  pieceSize : Nat
  fileOpen : Bool
  fileSize : Nat
  content : List Nat
  deriving Repr, DecidableEq

/-- Writing `data` into `content` at byte offset `offset`, zero-extending
the file first when the offset lies past the end (semantics of
`fileHandle.write(dataBuffer, 0, dataBuffer.length, offset)`). -/
def overwrite (content : List Nat) (offset : Nat) (data : List Nat) : List Nat :=
  (content.take offset ++ List.replicate (offset - content.length) 0)
    ++ data ++ content.drop (offset + data.length)

/-- `Manager.readPiece(index)` (manager.js lines 36–48).  The length is
`pieceSize`, clipped to `fileSize - offset` when the piece would overrun the
recorded file size; a negative clipped length makes `Buffer.alloc` throw, and
a null `fileHandle` makes `read` throw — both modelled as `none`.  The read
returns the bytes present in the file, zero-padded to the buffer length
(`Buffer.alloc` zero-fills and a short read leaves the tail zeros). -/
def FileMgr.readPiece (m : FileMgr) (index : Nat) : Option (List Nat) :=
  let offset := index * m.pieceSize
  let length : Int := if m.fileSize < offset + m.pieceSize
    then (m.fileSize : Int) - (offset : Int) else (m.pieceSize : Int)
  if length < 0 then none
  else if m.fileOpen = false then none
  else
    let len := length.toNat
    let readBytes := (m.content.drop offset).take len
    some (readBytes ++ List.replicate (len - readBytes.length) 0)

/-- `Manager.writePiece(index, dataBuffer)` (manager.js lines 50–54): writes
the buffer at offset `index * pieceSize`; fails only when the handle is null.
The `fileSize` field is not updated by a write. -/
def FileMgr.writePiece (m : FileMgr) (index : Nat) (data : List Nat) :
    Option FileMgr :=
  if m.fileOpen = false then none
  else some { m with content := overwrite m.content (index * m.pieceSize) data }

/-! ## Seed startup metadata (node.js constructor, lines 41–62) -/

/-- The default piece size (node.js line 13). -/
def defaultPieceSize : Nat := 65536

/-- The seed branch of the `Node` constructor: when the on-disk size is below
the default piece size the piece size collapses to the file size, and
`numPieces = Math.ceil(fileSize / pieceSize)`.  Returns
`(pieceSize, numPieces)`. -/
def seedStartup (diskSize : Nat) : Nat × Option Nat :=
  let ps := if diskSize < defaultPieceSize then diskSize else defaultPieceSize
  (ps, jsCeilDiv (some diskSize) (some ps))

/-! ## Duplicate-connection avoidance (node.js `_shouldInitiateConnection`) -/

/-- `_shouldInitiateConnection(otherPeerId)` (node.js lines 499–504):
`otherPeerId && this.id && this.id > otherPeerId`, with JS string truthiness
(the empty string is falsy) and lexicographic string comparison. -/
def shouldInitiate (selfId otherId : String) : Bool :=
  decide (otherId ≠ "") && decide (selfId ≠ "") && decide (otherId < selfId)

/-! ## Node state (node.js)

`knownPeers` is a JS `Map` keyed by peer id, preserving insertion order; it
is modelled as an association list to which new entries are appended.  A peer
record's `socket` field becomes the flag `connected` plus `sockAddr` (the
socket's remote address, used by peer exchange).  `availablePieces` is a JS
`Set` iterated in insertion order; it is kept as the raw list of indices
(duplicates never change which element `find?` locates, nor membership, the
only observations the code makes of it). -/

structure PeerInfo where
  host : Option String
  port : Option Nat
  connected : Bool
  sockAddr : Option String
  availablePieces : List Nat
  busy : Bool
  handshakeSent : Bool
  handshakeReceived : Bool
  deriving Repr, DecidableEq

/-- Per-socket state the handlers consult: `socket.peerId`,
`socket.isOutgoing`, `socket.remoteAddress`. -/
structure SocketState where
  peerId : Option String
  isOutgoing : Bool
  remoteAddress : Option String
  deriving Repr, DecidableEq

/-- The mutable fields of `Node` that the protocol handlers touch.
`mgrSizeSet = some v` records that `fileManager.setSize` was called, last
with argument `v`; `startTimeSet` records that `startTime` was assigned;
`progressRunning` models the live progress interval. -/
structure NodeState where
  selfId : String
  port : Nat
  fileName : Option String
  fileSize : Option Nat
  fileHash : Option String
  pieceSize : Option Nat
  numPieces : Option Nat
  isSeed : Bool
  knownPeers : List (String × PeerInfo)
  havePieces : Finset Nat
  missingPieces : Finset Nat
  pendingPieces : Finset Nat
  bytesDownloaded : Nat
  mgrSizeSet : Option (Option Nat)
  startTimeSet : Bool
  progressRunning : Bool
  deriving DecidableEq

/-- First record stored under key `k` (JS `Map.get`). -/
def lookupPeer : List (String × PeerInfo) → String → Option PeerInfo
  | [], _ => none
  | p :: t, k => if p.1 = k then some p.2 else lookupPeer t k

/-- JS `Map.has`. -/
def hasPeer (l : List (String × PeerInfo)) (k : String) : Bool :=
  (lookupPeer l k).isSome

/-- Update the record stored under key `k` in place (JS mutation of the
record object held by the map). -/
def updPeer : List (String × PeerInfo) → String → (PeerInfo → PeerInfo) →
    List (String × PeerInfo)
  | [], _, _ => []
  | p :: t, k, f => (if p.1 = k then (p.1, f p.2) else p) :: updPeer t k f

/-- JS `Map.delete`. -/
def erasePeer : List (String × PeerInfo) → String → List (String × PeerInfo)
  | [], _ => []
  | p :: t, k => if p.1 = k then erasePeer t k else p :: erasePeer t k

/-- JS `Set.add` on a set represented as its insertion-ordered list. -/
def setAdd (l : List Nat) (i : Nat) : List Nat :=
  if i ∈ l then l else l ++ [i]

/-- Outbound wire messages. -/
inductive OutMsg where
  | handshakeMsg (id : String) (fileName : Option String) (fileSize : Option Nat)
      (fileHash : Option String) (pieceSize : Option Nat) (port : Nat)
  | bitfieldMsg (pieces : List Nat)
  | requestMsg (index : Nat)
  | pieceMsg (index : Nat) (data : List Nat)
  | haveMsg (index : Nat)
  | peersMsg (peers : List (String × Option String × Option Nat))
  deriving Repr, DecidableEq

/-- Where a message is written: the socket the handler is serving, or the
socket attached to the peer record with the given id. -/
inductive Dest where
  | thisSock
  | peerSock (id : String)
  deriving Repr, DecidableEq

/-- Result of a handler: the new node state, the (possibly re-labelled)
socket, whether `socket.end()` was called, and the messages written.
`diverges = true` marks a path on which the handler never returns (the
metadata-adoption loop with `numPieces = Infinity`); on such a path `node`
records only the assignments made before the non-terminating loop and the
remaining fields are the values at that point — there is no final state. -/
structure HResult where
  node : NodeState
  sock : SocketState
  closed : Bool
  sent : List (Dest × OutMsg)
  diverges : Bool := false
  deriving DecidableEq

/-- An inbound `handshake` message as parsed from JSON: every field except
`id` may be absent. -/
structure HandshakeMsg where
  id : String
  fileName : Option String
  fileSize : Option Nat
  fileHash : Option String
  pieceSize : Option Nat
  port : Option Nat
  deriving Repr, DecidableEq

/-- A freshly created peer record (`_handleHandshake` line 208 when the
connection is attached, `_handlePeers` line 422 with `socket: null`).
For a handshake-created record the attached socket's remote address is also
its `sockAddr`. -/
def freshPeer (addr : Option String) (port : Option Nat) (conn : Bool) : PeerInfo :=
  { host := addr, port := port, connected := conn,
    sockAddr := if conn then addr else none,
    availablePieces := [], busy := false,
    handshakeSent := false, handshakeReceived := false }

/-! ## Scheduler (node.js `_scheduleRequests` / `_sendRequest`) -/

/-- The inner loop of `_scheduleRequests` for one peer: a connected,
non-busy peer is assigned the first of its `availablePieces` that is missing
and not pending. -/
def schedPick (missing pending : Finset Nat) (pi : PeerInfo) : Option Nat :=
  if pi.connected && !pi.busy then
    pi.availablePieces.find? (fun i => decide (i ∈ missing) && decide (i ∉ pending))
  else none

/-- The scheduler pass over the peer list, threading `pendingPieces`
(`_sendRequest` inserts the index and marks the peer busy before writing the
`request`). -/
def schedGo (missing : Finset Nat) :
    List (String × PeerInfo) → Finset Nat →
    List (String × PeerInfo) × Finset Nat × List (Dest × OutMsg)
  | [], pending => ([], pending, [])
  | (pid, pi) :: rest, pending =>
    match schedPick missing pending pi with
    | some i =>
      let r := schedGo missing rest (insert i pending)
      ((pid, { pi with busy := true }) :: r.1, r.2.1,
        (Dest.peerSock pid, OutMsg.requestMsg i) :: r.2.2)
    | none =>
      let r := schedGo missing rest pending
      ((pid, pi) :: r.1, r.2.1, r.2.2)

/-- `_scheduleRequests` (node.js lines 479–497): a no-op when no file hash is
known or nothing is missing; otherwise one pass over `knownPeers`. -/
def runScheduler (st : NodeState) : NodeState × List (Dest × OutMsg) :=
  if st.fileHash.isNone || decide (st.missingPieces = ∅) then (st, [])
  else
    let r := schedGo st.missingPieces st.knownPeers st.pendingPieces
    ({ st with knownPeers := r.1, pendingPieces := r.2.1 }, r.2.2)

/-! ## Handshake handling (node.js `_handleHandshake`) -/

/-- The tail of `_handleHandshake` after metadata reconciliation (node.js
lines 256–295): reply with our handshake when we are the inbound side and
have not sent one, mark `handshakeReceived`, send a bitfield when we hold
pieces, and perform peer exchange on inbound connections. -/
def afterMeta (st : NodeState) (sock : SocketState) (remoteId : String)
    (remotePort : Option Nat) : HResult :=
  let hsSentAlready := ((lookupPeer st.knownPeers remoteId).map
    (fun pi => pi.handshakeSent)).getD false
  let needReply := !sock.isOutgoing && !hsSentAlready
  let stA := if needReply then
      { st with knownPeers := (updPeer st.knownPeers remoteId
          (fun pi => { pi with handshakeSent := true })) }
    else st
  let replyMsgs : List (Dest × OutMsg) := if needReply then
      [(Dest.thisSock, OutMsg.handshakeMsg st.selfId st.fileName st.fileSize
          st.fileHash st.pieceSize st.port)]
    else []
  let stB := { stA with knownPeers := (updPeer stA.knownPeers remoteId
      (fun pi => { pi with handshakeReceived := true })) }
  let bitMsgs : List (Dest × OutMsg) := if 0 < stB.havePieces.card then
      [(Dest.thisSock, OutMsg.bitfieldMsg (stB.havePieces.sort (· ≤ ·)))]
    else []
  let pexMsgs : List (Dest × OutMsg) :=
    if !sock.isOutgoing then
      let others := stB.knownPeers.filter (fun p => p.1 != remoteId && p.2.connected)
      let listMsg : List (Dest × OutMsg) := if others.isEmpty then [] else
        [(Dest.thisSock, OutMsg.peersMsg (others.map (fun p =>
          (p.1, (match normStr p.2.host with
                 | some h => some h
                 | none => p.2.sockAddr), p.2.port))))]
      let singles := others.map (fun p => (Dest.peerSock p.1,
        OutMsg.peersMsg [(remoteId, sock.remoteAddress, remotePort)]))
      listMsg ++ singles
    else []
  { node := stB, sock := sock, closed := false,
    sent := replyMsgs ++ bitMsgs ++ pexMsgs }

/-- Lines 201–210 of `_handleHandshake`: re-bind the socket on an existing
record, or append a fresh record for a new peer. -/
def upsertPeer (st : NodeState) (sock : SocketState) (msg : HandshakeMsg) :
    NodeState :=
  if hasPeer st.knownPeers msg.id then
    { st with knownPeers := (updPeer st.knownPeers msg.id
        (fun pi => { pi with connected := true, sockAddr := sock.remoteAddress })) }
  else
    { st with knownPeers :=
        (st.knownPeers ++ [(msg.id, freshPeer sock.remoteAddress msg.port true)]) }

/-- `_handleHandshake` (node.js lines 188–296). -/
def handleHandshake (st : NodeState) (sock : SocketState) (msg : HandshakeMsg) :
    HResult :=
  let remoteId := msg.id
  let remoteFileName := normStr msg.fileName
  let remoteFileSize := normNat msg.fileSize
  let remoteFileHash := normStr msg.fileHash
  let remotePieceSize := normNat msg.pieceSize
  if remoteId = st.selfId then
    { node := st, sock := sock, closed := false, sent := [] }
  else
    let st1 := upsertPeer st sock msg
    let sock1 := { sock with peerId := some remoteId }
    if st1.isSeed then
      if remoteFileHash.isSome && st1.fileHash.isSome
          && decide (remoteFileHash ≠ st1.fileHash) then
        { node := { st1 with knownPeers := erasePeer st1.knownPeers remoteId },
          sock := sock1, closed := true, sent := [] }
      else afterMeta st1 sock1 remoteId msg.port
    else
      match remoteFileHash with
      | some _ =>
        let nps := jsCeilDiv remoteFileSize remotePieceSize
        if remoteFileSize.isSome && remotePieceSize.isNone then
          -- `Math.ceil(fileSize / null)` is `Infinity` for a truthy
          -- `fileSize`, so `for (let i = 0; i < Infinity; i++)` never
          -- terminates: the handler hangs inside the missing-init loop.
          -- Only the metadata assignments made before the loop are
          -- recorded; `have` is never reset, `setSize` is never called,
          -- nothing further is sent, and there is no final state.
          { node := { st1 with
              fileName := remoteFileName,
              fileSize := remoteFileSize,
              fileHash := remoteFileHash,
              pieceSize := remotePieceSize,
              numPieces := nps },
            sock := sock1, closed := false, sent := [], diverges := true }
        else
          let st2 := { st1 with
            fileName := remoteFileName,
            fileSize := remoteFileSize,
            fileHash := remoteFileHash,
            pieceSize := remotePieceSize,
            numPieces := nps,
            missingPieces := st1.missingPieces ∪ Finset.range (nps.getD 0),
            havePieces := ∅,
            mgrSizeSet := some remoteFileSize,
            startTimeSet := true,
            progressRunning := true }
          afterMeta st2 sock1 remoteId msg.port
      | none =>
        { node := { st1 with knownPeers := erasePeer st1.knownPeers remoteId },
          sock := sock1, closed := true, sent := [] }

/-! ## The remaining handlers -/

/-- The guard shared by `_handleBitfield` and `_handleHave` (node.js lines
301 and 403): `socket.peerId` must be a truthy string that is a key of
`knownPeers`; otherwise the handler returns at once. -/
def sockPeer (st : NodeState) (sock : SocketState) : Option String :=
  match sock.peerId with
  | none => none
  | some pid => if pid != "" && hasPeer st.knownPeers pid then some pid else none

/-- `_handleBitfield` (node.js lines 298–307). -/
def handleBitfield (st : NodeState) (sock : SocketState) (pieces : List Nat) :
    HResult :=
  match sockPeer st sock with
  | none => { node := st, sock := sock, closed := false, sent := [] }
  | some pid =>
    let st1 := { st with knownPeers := (updPeer st.knownPeers pid
        (fun pi => { pi with availablePieces := pieces })) }
    let r := runScheduler st1
    { node := r.1, sock := sock, closed := false, sent := r.2 }

/-- `_handleRequest` (node.js lines 309–330): requests for pieces we do not
hold are ignored; otherwise the piece is read and sent (a read error sends
nothing). -/
def handleRequest (st : NodeState) (f : FileMgr) (sock : SocketState)
    (index : Nat) : HResult :=
  if decide (index ∈ st.havePieces) = false then
    { node := st, sock := sock, closed := false, sent := [] }
  else
    match f.readPiece index with
    | some buf =>
      { node := st, sock := sock, closed := false,
        sent := [(Dest.thisSock, OutMsg.pieceMsg index buf)] }
    | none => { node := st, sock := sock, closed := false, sent := [] }

/-- Result of `_handlePiece`: node state, file state, messages written. -/
structure PResult where
  node : NodeState
  file : FileMgr
  sent : List (Dest × OutMsg)
  deriving DecidableEq

/-- `_handlePiece` up to the completion check (node.js lines 332–366): write
the decoded bytes (on a write error return with nothing changed), update the
piece sets, free the sender, count the bytes, and broadcast `have` to every
other connected peer. -/
def handlePieceCore (st : NodeState) (f : FileMgr) (sock : SocketState)
    (index : Nat) (data : List Nat) : Option PResult :=
  match f.writePiece index data with
  | none => none
  | some f2 =>
    let st1 := { st with
      havePieces := insert index st.havePieces,
      missingPieces := st.missingPieces.erase index,
      pendingPieces := st.pendingPieces.erase index }
    let st2 := match sock.peerId with
      | some pid =>
        if pid != "" && hasPeer st1.knownPeers pid then
          { st1 with knownPeers := (updPeer st1.knownPeers pid
              (fun pi => { pi with busy := false })) }
        else st1
      | none => st1
    let st3 := { st2 with bytesDownloaded := st2.bytesDownloaded + data.length }
    let haves := (st3.knownPeers.filter
        (fun p => p.2.connected && decide (some p.1 ≠ sock.peerId))).map
        (fun p => (Dest.peerSock p.1, OutMsg.haveMsg index))
    some { node := st3, file := f2, sent := haves }

/-- `_handlePiece` (node.js lines 332–398): the core, then either completion
(stop the progress interval, become a seed, do not reschedule) or another
scheduler pass. -/
def handlePiece (st : NodeState) (f : FileMgr) (sock : SocketState)
    (index : Nat) (data : List Nat) : PResult :=
  match handlePieceCore st f sock index data with
  | none => { node := st, file := f, sent := [] }
  | some r =>
    if decide (r.node.missingPieces = ∅) then
      { r with node := { r.node with isSeed := true, progressRunning := false } }
    else
      let s := runScheduler r.node
      { node := s.1, file := r.file, sent := r.sent ++ s.2 }

/-- `_handleHave` (node.js lines 400–412). -/
def handleHave (st : NodeState) (sock : SocketState) (index : Nat) : HResult :=
  match sockPeer st sock with
  | none => { node := st, sock := sock, closed := false, sent := [] }
  | some pid =>
    match lookupPeer st.knownPeers pid with
    | none => { node := st, sock := sock, closed := false, sent := [] }
    | some pi =>
      let st1 := { st with knownPeers := (updPeer st.knownPeers pid
          (fun q => { q with availablePieces := setAdd q.availablePieces index })) }
      if decide (index ∈ st1.missingPieces) && decide (index ∉ st1.pendingPieces)
          && !pi.busy then
        let r := runScheduler st1
        { node := r.1, sock := sock, closed := false, sent := r.2 }
      else { node := st1, sock := sock, closed := false, sent := [] }

/-- The loop body of `_handlePeers` (node.js lines 414–433); the second
component collects the ids this node dials. -/
def handlePeersGo (selfId : String) :
    List (String × PeerInfo) → List (String × Option String × Option Nat) →
    List (String × PeerInfo) × List String
  | peers, [] => (peers, [])
  | peers, (pid, host, port) :: rest =>
    if pid = selfId then handlePeersGo selfId peers rest
    else if hasPeer peers pid then handlePeersGo selfId peers rest
    else
      let peers1 := peers ++ [(pid, { freshPeer host port false with host := host })]
      let r := handlePeersGo selfId peers1 rest
      if shouldInitiate selfId pid then (r.1, pid :: r.2) else r

/-- `_handlePeers` (node.js lines 414–433). -/
def handlePeers (st : NodeState) (ps : List (String × Option String × Option Nat)) :
    NodeState × List String :=
  let r := handlePeersGo st.selfId st.knownPeers ps
  ({ st with knownPeers := r.1 }, r.2)

/-- The socket `close` handler (node.js lines 137–153): null out the peer
record's socket and busy flag, clear all of `pendingPieces`, reschedule. -/
def handleClose (st : NodeState) (sock : SocketState) :
    NodeState × List (Dest × OutMsg) :=
  let st1 := match sock.peerId with
    | some pid =>
      if pid != "" && hasPeer st.knownPeers pid then
        { st with knownPeers := (updPeer st.knownPeers pid
            (fun pi => { pi with connected := false, sockAddr := none, busy := false })) }
      else st
    | none => st
  let st2 := { st1 with pendingPieces := (∅ : Finset Nat) }
  runScheduler st2

/-- `_sendHandshake` on an outbound connect (node.js lines 435–451): the
node-state effect is marking `handshakeSent` when the socket is bound to a
known peer. -/
def sendHandshakeEffect (st : NodeState) (sock : SocketState) :
    NodeState × (Dest × OutMsg) :=
  let st1 := match sock.peerId with
    | some pid =>
      if pid != "" && hasPeer st.knownPeers pid then
        { st with knownPeers := (updPeer st.knownPeers pid
            (fun pi => { pi with handshakeSent := true })) }
      else st
    | none => st
  (st1, (Dest.thisSock, OutMsg.handshakeMsg st.selfId st.fileName st.fileSize
      st.fileHash st.pieceSize st.port))

/-! ## Startup states and the transition system -/

/-- Node state of a leecher right after the constructor (node.js lines 7–39):
no metadata, default piece size, all piece sets empty. -/
def leecherInit (id : String) (port : Nat) (name : String) : NodeState :=
  { selfId := id, port := port, fileName := some name, fileSize := none,
    fileHash := none, pieceSize := some defaultPieceSize, numPieces := none,
    isSeed := false, knownPeers := [], havePieces := ∅, missingPieces := ∅,
    pendingPieces := ∅, bytesDownloaded := 0, mgrSizeSet := none,
    startTimeSet := false, progressRunning := false }

/-- Node state of a seed after the constructor's `openFile` continuation
(node.js lines 40–62): piece size possibly collapsed, `have` full,
`missing` and `pending` empty, hash `h` computed from the file. -/
def seedInit (id : String) (port : Nat) (name : String) (diskSize : Nat)
    (h : String) : NodeState :=
  { selfId := id, port := port, fileName := some name,
    fileSize := some diskSize, fileHash := some h,
    pieceSize := some (seedStartup diskSize).1,
    numPieces := (seedStartup diskSize).2, isSeed := true, knownPeers := [],
    havePieces := Finset.range (((seedStartup diskSize).2).getD 0),
    missingPieces := ∅, pendingPieces := ∅, bytesDownloaded := 0,
    mgrSizeSet := none, startTimeSet := false, progressRunning := false }

/-- One dispatched event of the node: an inbound message handled by
`_handleMessage`, a socket close, or the handshake sent on outbound
connect.  The socket, file and message contents are arbitrary. -/
inductive Step : NodeState → NodeState → Prop where
  | handshake (st : NodeState) (sock : SocketState) (msg : HandshakeMsg) :
      Step st (handleHandshake st sock msg).node
  | bitfield (st : NodeState) (sock : SocketState) (pieces : List Nat) :
      Step st (handleBitfield st sock pieces).node
  | request (st : NodeState) (f : FileMgr) (sock : SocketState) (i : Nat) :
      Step st (handleRequest st f sock i).node
  | pieceStep (st : NodeState) (f : FileMgr) (sock : SocketState) (i : Nat)
      (data : List Nat) : Step st (handlePiece st f sock i data).node
  | haveStep (st : NodeState) (sock : SocketState) (i : Nat) :
      Step st (handleHave st sock i).node
  | peersStep (st : NodeState) (ps : List (String × Option String × Option Nat)) :
      Step st (handlePeers st ps).1
  | closeStep (st : NodeState) (sock : SocketState) :
      Step st (handleClose st sock).1
  | hsSend (st : NodeState) (sock : SocketState) :
      Step st (sendHandshakeEffect st sock).1

/-- States reachable from `init` by dispatched events. -/
inductive Reachable (init : NodeState) : NodeState → Prop where
  | refl : Reachable init init
  | step {st st2 : NodeState} : Reachable init st → Step st st2 →
      Reachable init st2

/-! ## C5: the collision rule -/

/-- C5: for distinct non-empty peer ids `a` and `b`, exactly one of
`shouldInitiate(a→b)` and `shouldInitiate(b→a)` holds, so for any unordered
pair exactly one side dials. -/
theorem c5_initiate_exactly_one (a b : String) (hab : a ≠ b)
    (ha : a ≠ "") (hb : b ≠ "") :
    (shouldInitiate a b = true ∧ shouldInitiate b a = false) ∨
    (shouldInitiate a b = false ∧ shouldInitiate b a = true) := by
  have h1 : shouldInitiate a b = decide (b < a) := by
    simp [shouldInitiate, ha, hb]
  have h2 : shouldInitiate b a = decide (a < b) := by
    simp [shouldInitiate, ha, hb]
  rcases lt_trichotomy a b with hlt | heq | hgt
  · right
    rw [h1, h2]
    exact ⟨decide_eq_false (asymm hlt), decide_eq_true hlt⟩
  · exact absurd heq hab
  · left
    rw [h1, h2]
    exact ⟨decide_eq_true hgt, decide_eq_false (asymm hgt)⟩

/-- C5 witness: the rule decided on the ids of end-to-end scenario 4. -/
theorem c5_initiate_exactly_one_witness :
    (shouldInitiate "ffffffffffffffff" "0000000000000000" = true ∧
      shouldInitiate "0000000000000000" "ffffffffffffffff" = false) ∨
    (shouldInitiate "ffffffffffffffff" "0000000000000000" = false ∧
      shouldInitiate "0000000000000000" "ffffffffffffffff" = true) :=
  c5_initiate_exactly_one "ffffffffffffffff" "0000000000000000"
    (by decide) (by decide) (by decide)

/-! ## C8: small-file seed startup -/

/-- C8 counterexample: a seed whose on-disk file is empty gets
`pieceSize = 0` and `numPieces = Math.ceil(0 / 0) = NaN` (modelled `none`),
not `numPieces = 1` as the claim states for size `0`. -/
theorem c8_counterexample :
    (seedStartup 0).2 = none ∧ (seedStartup 0).2 ≠ some 1 := by decide

/-- C8 amended: for a seed whose file size is strictly between `0` and the
default piece size of `65536`, startup sets `pieceSize = fileSize` and
`numPieces = 1`; at size exactly `0` the piece size still collapses to `0`
but `numPieces` is the result of a division by zero (`NaN`), not `1`. -/
theorem c8_amended_small_seed (s : Nat) (h0 : 0 < s) (hs : s < defaultPieceSize) :
    seedStartup s = (s, some 1) := by
  obtain ⟨n, rfl⟩ : ∃ n, s = n + 1 := ⟨s - 1, (Nat.succ_pred_eq_of_pos h0).symm⟩
  have hdiv : (n + 1 + n) / (n + 1) = 1 :=
    Nat.div_eq_of_lt_le (by omega) (by omega)
  simp [seedStartup, jsCeilDiv, if_pos hs, hdiv]

/-- C8 witness: a 1000-byte file collapses to a single 1000-byte piece. -/
theorem c8_amended_small_seed_witness : seedStartup 1000 = (1000, some 1) :=
  c8_amended_small_seed 1000 (by decide) (by decide)

/-! ## C4: readPiece -/

/-- Closed form of `readPiece`: the clipped length is negative — so
`Buffer.alloc` throws — exactly when the offset exceeds the recorded file
size; otherwise it equals `min pieceSize (fileSize − offset)`. -/
theorem readPiece_char (m : FileMgr) (i : Nat) :
    m.readPiece i =
      if m.fileSize < i * m.pieceSize then none
      else if m.fileOpen = false then none
      else some (((m.content.drop (i * m.pieceSize)).take
            (min m.pieceSize (m.fileSize - i * m.pieceSize))) ++
          List.replicate ((min m.pieceSize (m.fileSize - i * m.pieceSize)) -
            ((m.content.drop (i * m.pieceSize)).take
              (min m.pieceSize (m.fileSize - i * m.pieceSize))).length) 0) := by
  unfold FileMgr.readPiece
  by_cases hov : m.fileSize < i * m.pieceSize
  · have hneg : (if m.fileSize < i * m.pieceSize + m.pieceSize
        then (m.fileSize : Int) - ((i * m.pieceSize : Nat) : Int)
        else ((m.pieceSize : Nat) : Int)) < 0 := by
      rw [if_pos (by omega)]
      push_cast
      omega
    simp only [hneg, if_true, if_pos hov]
  · have hneg : ¬ ((if m.fileSize < i * m.pieceSize + m.pieceSize
        then (m.fileSize : Int) - ((i * m.pieceSize : Nat) : Int)
        else ((m.pieceSize : Nat) : Int)) < 0) := by
      split <;> push_cast <;> omega
    have htn : (if m.fileSize < i * m.pieceSize + m.pieceSize
        then (m.fileSize : Int) - ((i * m.pieceSize : Nat) : Int)
        else ((m.pieceSize : Nat) : Int)).toNat
        = min m.pieceSize (m.fileSize - i * m.pieceSize) := by
      split <;> push_cast <;> omega
    simp only [hneg, if_false, if_neg hov, htn]

/-- C4 counterexample: the out-of-range index `numPieces` itself does not
make `readPiece` fail when `fileSize` is an exact multiple of `pieceSize`:
on an open 4-byte file with 4-byte pieces (`numPieces = 1`), `readPiece 1`
returns an empty buffer instead of failing. -/
theorem c4_counterexample :
    jsCeilDiv (some 4) (some 4) = some 1 ∧
    FileMgr.readPiece ⟨4, true, 4, [9, 8, 7, 6]⟩ 1 = some [] := by decide

/-- C4 amended: on an open file whose content matches `fileSize`, for every
index below `numPieces = ceil(fileSize / pieceSize)`, `readPiece` returns
exactly the `min(pieceSize, fileSize − index·pieceSize)` bytes stored at
offset `index·pieceSize` (so a short last piece is returned exactly);
`readPiece` fails whenever the file is not open, and fails on an
out-of-range index whenever `index·pieceSize > fileSize` — but when
`index·pieceSize = fileSize` (an out-of-range index on a piece-aligned
file) it returns an empty buffer instead of failing. -/
theorem c4_amended_readPiece :
    (∀ (m : FileMgr) (i np : Nat), m.fileOpen = true →
      m.content.length = m.fileSize → 0 < m.pieceSize →
      jsCeilDiv (some m.fileSize) (some m.pieceSize) = some np → i < np →
      m.readPiece i =
        some ((m.content.drop (i * m.pieceSize)).take
          (min m.pieceSize (m.fileSize - i * m.pieceSize))) ∧
      ∀ bs, m.readPiece i = some bs →
        bs.length = min m.pieceSize (m.fileSize - i * m.pieceSize)) ∧
    (∀ (m : FileMgr) (i : Nat), m.fileOpen = false → m.readPiece i = none) ∧
    (∀ (m : FileMgr) (i : Nat), m.fileSize < i * m.pieceSize →
      m.readPiece i = none) ∧
    (∀ (m : FileMgr) (i : Nat), m.fileOpen = true →
      i * m.pieceSize = m.fileSize → m.readPiece i = some []) := by
  refine ⟨?_, ?_, ?_, ?_⟩
  · intro m i np hopen hlen hp hnp hi
    have hbound : i * m.pieceSize < m.fileSize := by
      obtain ⟨p, hps⟩ : ∃ p, m.pieceSize = p + 1 :=
        ⟨m.pieceSize - 1, (Nat.succ_pred_eq_of_pos hp).symm⟩
      have hnp2 : (m.fileSize + p) / (p + 1) = np := by
        simpa [jsCeilDiv, hps] using hnp
      have h1 : (i + 1) * (p + 1) ≤ ((m.fileSize + p) / (p + 1)) * (p + 1) :=
        Nat.mul_le_mul_right _ (by omega)
      have h2 : ((m.fileSize + p) / (p + 1)) * (p + 1) ≤ m.fileSize + p :=
        Nat.div_mul_le_self _ _
      -- i < np forces (i+1)(p+1) ≤ fileSize + p, hence i(p+1) < fileSize
      have h3 : (i + 1) * (p + 1) ≤ m.fileSize + p := le_trans h1 h2
      have h4 : i * (p + 1) < m.fileSize := by nlinarith
      simpa [hps] using h4
    have hdlen : ((m.content.drop (i * m.pieceSize)).take
        (min m.pieceSize (m.fileSize - i * m.pieceSize))).length
        = min m.pieceSize (m.fileSize - i * m.pieceSize) := by
      rw [List.length_take, List.length_drop, hlen]
      omega
    have hres : m.readPiece i =
        some ((m.content.drop (i * m.pieceSize)).take
          (min m.pieceSize (m.fileSize - i * m.pieceSize))) := by
      rw [readPiece_char, if_neg (by omega), hopen]
      simp [hdlen]
    refine ⟨hres, ?_⟩
    intro bs hbs
    rw [hres] at hbs
    rw [← Option.some.inj hbs]
    exact hdlen
  · intro m i hclosed
    rw [readPiece_char, hclosed]
    split <;> rfl
  · intro m i hover
    rw [readPiece_char, if_pos hover]
  · intro m i hopen heq
    rw [readPiece_char, if_neg (by omega), hopen]
    simp [heq]

/-! ## Association-list lemmas for the peer map -/

theorem lookup_erasePeer_self (l : List (String × PeerInfo)) (k : String) :
    lookupPeer (erasePeer l k) k = none := by
  induction l with
  | nil => rfl
  | cons a t ih =>
    by_cases hk : a.1 = k
    · simpa [erasePeer, hk] using ih
    · simpa [erasePeer, lookupPeer, hk] using ih

theorem lookup_erasePeer_ne (l : List (String × PeerInfo)) (k pid : String)
    (h : pid ≠ k) : lookupPeer (erasePeer l k) pid = lookupPeer l pid := by
  induction l with
  | nil => rfl
  | cons a t ih =>
    by_cases hk : a.1 = k
    · have hkp : k ≠ pid := fun hh => h hh.symm
      simpa [erasePeer, lookupPeer, hk, hkp] using ih
    · by_cases hp : a.1 = pid
      · simp [erasePeer, lookupPeer, hk, hp, h]
      · simpa [erasePeer, lookupPeer, hk, hp] using ih

theorem erasePeer_updPeer (l : List (String × PeerInfo)) (k : String)
    (f : PeerInfo → PeerInfo) :
    erasePeer (updPeer l k f) k = erasePeer l k := by
  induction l with
  | nil => rfl
  | cons a t ih =>
    by_cases hk : a.1 = k
    · simpa [updPeer, erasePeer, hk] using ih
    · simpa [updPeer, erasePeer, hk] using ih

theorem erasePeer_append_self (l : List (String × PeerInfo)) (k : String)
    (pi : PeerInfo) : erasePeer (l ++ [(k, pi)]) k = erasePeer l k := by
  induction l with
  | nil => simp [erasePeer]
  | cons a t ih =>
    by_cases hk : a.1 = k
    · simpa [erasePeer, hk] using ih
    · simpa [erasePeer, hk] using ih

theorem lookup_updPeer_self (l : List (String × PeerInfo)) (k : String)
    (f : PeerInfo → PeerInfo) :
    lookupPeer (updPeer l k f) k = (lookupPeer l k).map f := by
  induction l with
  | nil => rfl
  | cons a t ih =>
    by_cases hk : a.1 = k
    · simp [updPeer, lookupPeer, hk]
    · simpa [updPeer, lookupPeer, hk] using ih

/-- The peer upsert only rewrites the known-peers map. -/
theorem upsertPeer_shape (st : NodeState) (sock : SocketState)
    (msg : HandshakeMsg) :
    ∃ kp, upsertPeer st sock msg = { st with knownPeers := kp } := by
  unfold upsertPeer
  split <;> exact ⟨_, rfl⟩

/-- Erasing the upserted key undoes the upsert's effect on the map. -/
theorem upsertPeer_erase (st : NodeState) (sock : SocketState)
    (msg : HandshakeMsg) :
    erasePeer (upsertPeer st sock msg).knownPeers msg.id =
      erasePeer st.knownPeers msg.id := by
  unfold upsertPeer
  split
  · exact erasePeer_updPeer _ _ _
  · exact erasePeer_append_self _ _ _

/-! ## Scheduler and afterMeta projection lemmas -/

theorem runScheduler_have (st : NodeState) :
    (runScheduler st).1.havePieces = st.havePieces := by
  unfold runScheduler
  split <;> rfl

theorem runScheduler_missing (st : NodeState) :
    (runScheduler st).1.missingPieces = st.missingPieces := by
  unfold runScheduler
  split <;> rfl

theorem runScheduler_bytes (st : NodeState) :
    (runScheduler st).1.bytesDownloaded = st.bytesDownloaded := by
  unfold runScheduler
  split <;> rfl

theorem afterMeta_closed (st : NodeState) (sock : SocketState) (rid : String)
    (rport : Option Nat) : (afterMeta st sock rid rport).closed = false := by
  unfold afterMeta
  rfl

theorem afterMeta_fileName (st : NodeState) (sock : SocketState) (rid : String)
    (rport : Option Nat) :
    (afterMeta st sock rid rport).node.fileName = st.fileName := by
  unfold afterMeta
  dsimp only
  split <;> rfl

theorem afterMeta_fileSize (st : NodeState) (sock : SocketState) (rid : String)
    (rport : Option Nat) :
    (afterMeta st sock rid rport).node.fileSize = st.fileSize := by
  unfold afterMeta
  dsimp only
  split <;> rfl

theorem afterMeta_fileHash (st : NodeState) (sock : SocketState) (rid : String)
    (rport : Option Nat) :
    (afterMeta st sock rid rport).node.fileHash = st.fileHash := by
  unfold afterMeta
  dsimp only
  split <;> rfl

theorem afterMeta_pieceSize (st : NodeState) (sock : SocketState) (rid : String)
    (rport : Option Nat) :
    (afterMeta st sock rid rport).node.pieceSize = st.pieceSize := by
  unfold afterMeta
  dsimp only
  split <;> rfl

theorem afterMeta_numPieces (st : NodeState) (sock : SocketState) (rid : String)
    (rport : Option Nat) :
    (afterMeta st sock rid rport).node.numPieces = st.numPieces := by
  unfold afterMeta
  dsimp only
  split <;> rfl

theorem afterMeta_havePieces (st : NodeState) (sock : SocketState) (rid : String)
    (rport : Option Nat) :
    (afterMeta st sock rid rport).node.havePieces = st.havePieces := by
  unfold afterMeta
  dsimp only
  split <;> rfl

theorem afterMeta_missingPieces (st : NodeState) (sock : SocketState)
    (rid : String) (rport : Option Nat) :
    (afterMeta st sock rid rport).node.missingPieces = st.missingPieces := by
  unfold afterMeta
  dsimp only
  split <;> rfl

theorem afterMeta_pendingPieces (st : NodeState) (sock : SocketState)
    (rid : String) (rport : Option Nat) :
    (afterMeta st sock rid rport).node.pendingPieces = st.pendingPieces := by
  unfold afterMeta
  dsimp only
  split <;> rfl

theorem afterMeta_mgrSizeSet (st : NodeState) (sock : SocketState)
    (rid : String) (rport : Option Nat) :
    (afterMeta st sock rid rport).node.mgrSizeSet = st.mgrSizeSet := by
  unfold afterMeta
  dsimp only
  split <;> rfl

theorem afterMeta_startTimeSet (st : NodeState) (sock : SocketState)
    (rid : String) (rport : Option Nat) :
    (afterMeta st sock rid rport).node.startTimeSet = st.startTimeSet := by
  unfold afterMeta
  dsimp only
  split <;> rfl

theorem afterMeta_diverges (st : NodeState) (sock : SocketState)
    (rid : String) (rport : Option Nat) :
    (afterMeta st sock rid rport).diverges = false := by
  unfold afterMeta
  rfl

/-! ## C2: handshake carrying the node's own id -/

/-- A connected peer record used by the concrete test states. -/
def exPeer : PeerInfo := freshPeer (some "10.0.0.1") (some 7001) true

/-- A leecher that already knows one peer. -/
def c2exSt : NodeState :=
  { leecherInit "aaaaaaaaaaaaaaaa" 6881 "out.bin" with
    knownPeers := [("bbbbbbbbbbbbbbbb", exPeer)] }

/-- An inbound socket that has not completed a handshake. -/
def c2exSock : SocketState :=
  { peerId := none, isOutgoing := false, remoteAddress := some "10.0.0.2" }

/-- A handshake advertising the node's own id. -/
def c2exMsg : HandshakeMsg :=
  { id := "aaaaaaaaaaaaaaaa", fileName := none, fileSize := none,
    fileHash := none, pieceSize := some 65536, port := some 7003 }

/-- C2 counterexample: on a handshake whose id equals the node's own id the
handler returns without calling `socket.end()` — the connection is NOT
closed and no peer record is dropped, contrary to the claim (the state is
indeed unchanged). -/
theorem c2_counterexample :
    c2exMsg.id = c2exSt.selfId ∧
    (handleHandshake c2exSt c2exSock c2exMsg).closed = false ∧
    (handleHandshake c2exSt c2exSock c2exMsg).node = c2exSt := by decide

/-- C2 amended: for every handshake message whose id equals the node's own
id, the node ignores the message entirely: the handler returns with the
connection left open, nothing sent, and no node or socket state mutated. -/
theorem c2_amended_selfid_ignore (st : NodeState) (sock : SocketState)
    (msg : HandshakeMsg) (h : msg.id = st.selfId) :
    handleHandshake st sock msg =
      { node := st, sock := sock, closed := false, sent := [] } := by
  simp [handleHandshake, h]

/-- C2 witness: the amended behaviour on the concrete self-id handshake. -/
theorem c2_amended_selfid_ignore_witness :
    handleHandshake c2exSt c2exSock c2exMsg =
      { node := c2exSt, sock := c2exSock, closed := false, sent := [] } :=
  c2_amended_selfid_ignore c2exSt c2exSock c2exMsg (by decide)

/-! ## Scheduler assignment lemmas -/

theorem schedPick_spec {missing pending : Finset Nat} {pi : PeerInfo} {i : Nat}
    (h : schedPick missing pending pi = some i) : i ∈ missing ∧ i ∉ pending := by
  unfold schedPick at h
  split at h
  · have hp := List.find?_some h
    simpa using hp
  · exact absurd h (by simp)

theorem schedGo_pending (missing : Finset Nat) :
    ∀ (l : List (String × PeerInfo)) (pending : Finset Nat),
      (schedGo missing l pending).2.1 ⊆ pending ∪ missing
  | [], pending => by
    simp [schedGo]
  | (pid, pi) :: t, pending => by
    simp only [schedGo]
    cases hpick : schedPick missing pending pi with
    | none =>
      dsimp only
      exact schedGo_pending missing t pending
    | some i =>
      dsimp only
      intro x hx
      have hxx := schedGo_pending missing t (insert i pending) hx
      rcases Finset.mem_union.mp hxx with hx1 | hx2
      · rcases Finset.mem_insert.mp hx1 with rfl | hx1
        · exact Finset.mem_union_right _ (schedPick_spec hpick).1
        · exact Finset.mem_union_left _ hx1
      · exact Finset.mem_union_right _ hx2

theorem schedGo_sent (missing : Finset Nat) :
    ∀ (l : List (String × PeerInfo)) (pending : Finset Nat),
      ∀ x ∈ (schedGo missing l pending).2.2,
        ∃ pid j, x = (Dest.peerSock pid, OutMsg.requestMsg j)
  | [], pending => by
    simp [schedGo]
  | (pid, pi) :: t, pending => by
    simp only [schedGo]
    cases hpick : schedPick missing pending pi with
    | none =>
      dsimp only
      exact schedGo_sent missing t pending
    | some i =>
      dsimp only
      intro x hx
      rcases List.mem_cons.mp hx with rfl | hx2
      · exact ⟨pid, i, rfl⟩
      · exact schedGo_sent missing t (insert i pending) x hx2

theorem runScheduler_pending (st : NodeState) :
    (runScheduler st).1.pendingPieces ⊆
      st.pendingPieces ∪ st.missingPieces := by
  unfold runScheduler
  split
  · exact Finset.subset_union_left
  · exact schedGo_pending _ _ _

theorem runScheduler_sent (st : NodeState) :
    ∀ x ∈ (runScheduler st).2,
      ∃ pid j, x = (Dest.peerSock pid, OutMsg.requestMsg j) := by
  unfold runScheduler
  split
  · simp
  · exact schedGo_sent _ _ _

/-! ## updPeer as a map -/

theorem updPeer_eq_map (l : List (String × PeerInfo)) (k : String)
    (f : PeerInfo → PeerInfo) :
    updPeer l k f = l.map (fun p => if p.1 = k then (p.1, f p.2) else p) := by
  induction l with
  | nil => rfl
  | cons a t ih => simp [updPeer, ih]

theorem lookupPeer_none_of_hasPeer_false {l : List (String × PeerInfo)}
    {k : String} (h : hasPeer l k = false) : lookupPeer l k = none := by
  rcases hlk : lookupPeer l k with _ | v
  · rfl
  · rw [hasPeer, hlk] at h
    simp at h

/-! ## C1: metadata adoption on handshake -/

/-- A leecher that has ALREADY adopted metadata (hash `"h1"`, 2 pieces of
50 bytes, piece 0 downloaded) and knows one peer. -/
def c1exSt : NodeState :=
  { leecherInit "aaaaaaaaaaaaaaaa" 6881 "out.bin" with
    fileName := some "f.bin"
    fileSize := some 100
    fileHash := some "h1"
    pieceSize := some 50
    numPieces := some 2
    havePieces := ({0} : Finset Nat)
    missingPieces := ({1} : Finset Nat)
    mgrSizeSet := some (some 100)
    startTimeSet := true
    progressRunning := true
    knownPeers := [("bbbbbbbbbbbbbbbb", exPeer)] }

/-- A later handshake from a different peer advertising different metadata. -/
def c1exMsg : HandshakeMsg :=
  { id := "cccccccccccccccc", fileName := some "g.bin", fileSize := some 200,
    fileHash := some "h2", pieceSize := some 50, port := some 7002 }

/-- C1 counterexample: the adoption guard is `!isSeed && remoteFileHash`,
not "has no metadata yet": a leecher that already adopted metadata (and
holds piece 0) re-adopts from a second peer's handshake — the adopted
metadata changes to the new hash and the have set is wiped — contradicting
the claim that a later handshake changes nothing. -/
theorem c1_counterexample :
    c1exSt.isSeed = false ∧
    c1exSt.fileHash = some "h1" ∧
    c1exSt.havePieces = ({0} : Finset Nat) ∧
    (handleHandshake c1exSt c2exSock c1exMsg).node.fileHash = some "h2" ∧
    (handleHandshake c1exSt c2exSock c1exMsg).node.havePieces = ∅ ∧
    (handleHandshake c1exSt c2exSock c1exMsg).node.fileSize = some 200 := by
  decide

/-- C1 amended: whenever the node is not a seed and the incoming handshake
carries a non-null `fileHash`, a non-null `fileSize` and a non-null
`pieceSize` — regardless of whether metadata was already adopted — the
node (re-)adopts: it sets `fileName`, `fileSize`, `pieceSize` from the
message (JS-falsy values becoming null), computes
`numPieces = ceil(fileSize / pieceSize)`, resets `have` to `∅`, adds
`{0..numPieces-1}` to `missing`, calls `setSize(fileSize)` on the file
manager, and records the start time; the connection is not closed and the
handler completes. -/
theorem c1_amended_adoption (st : NodeState) (sock : SocketState)
    (msg : HandshakeMsg) (h : String) (fs ps : Nat)
    (hseed : st.isSeed = false) (hid : msg.id ≠ st.selfId)
    (hhash : normStr msg.fileHash = some h)
    (hsize : normNat msg.fileSize = some fs)
    (hps : normNat msg.pieceSize = some ps) :
    (handleHandshake st sock msg).node.fileName = normStr msg.fileName ∧
    (handleHandshake st sock msg).node.fileSize = some fs ∧
    (handleHandshake st sock msg).node.fileHash = some h ∧
    (handleHandshake st sock msg).node.pieceSize = some ps ∧
    (handleHandshake st sock msg).node.numPieces =
      jsCeilDiv (some fs) (some ps) ∧
    (handleHandshake st sock msg).node.havePieces = ∅ ∧
    (handleHandshake st sock msg).node.missingPieces =
      st.missingPieces ∪ Finset.range
        ((jsCeilDiv (some fs) (some ps)).getD 0) ∧
    (handleHandshake st sock msg).node.mgrSizeSet = some (some fs) ∧
    (handleHandshake st sock msg).node.startTimeSet = true ∧
    (handleHandshake st sock msg).closed = false ∧
    (handleHandshake st sock msg).diverges = false := by
  obtain ⟨kp, hkp⟩ := upsertPeer_shape st sock msg
  simp only [handleHandshake, if_neg hid, hkp, hseed, hhash, hsize, hps,
    Bool.false_eq_true, if_false, Option.isSome_some, Option.isNone_some,
    Bool.true_and, Bool.and_false, afterMeta_fileName, afterMeta_fileSize,
    afterMeta_fileHash, afterMeta_pieceSize, afterMeta_numPieces,
    afterMeta_havePieces, afterMeta_missingPieces, afterMeta_mgrSizeSet,
    afterMeta_startTimeSet, afterMeta_closed, afterMeta_diverges]
  simp [hhash, hsize, hps]

/-- C1 witness: the amended adoption applied to the concrete re-adoption
input. -/
theorem c1_amended_adoption_witness :
    (handleHandshake c1exSt c2exSock c1exMsg).node.fileName =
      normStr c1exMsg.fileName ∧
    (handleHandshake c1exSt c2exSock c1exMsg).node.fileSize = some 200 ∧
    (handleHandshake c1exSt c2exSock c1exMsg).node.fileHash = some "h2" ∧
    (handleHandshake c1exSt c2exSock c1exMsg).node.pieceSize = some 50 ∧
    (handleHandshake c1exSt c2exSock c1exMsg).node.numPieces =
      jsCeilDiv (some 200) (some 50) ∧
    (handleHandshake c1exSt c2exSock c1exMsg).node.havePieces = ∅ ∧
    (handleHandshake c1exSt c2exSock c1exMsg).node.missingPieces =
      c1exSt.missingPieces ∪ Finset.range
        ((jsCeilDiv (some 200) (some 50)).getD 0) ∧
    (handleHandshake c1exSt c2exSock c1exMsg).node.mgrSizeSet =
      some (some 200) ∧
    (handleHandshake c1exSt c2exSock c1exMsg).node.startTimeSet = true ∧
    (handleHandshake c1exSt c2exSock c1exMsg).closed = false ∧
    (handleHandshake c1exSt c2exSock c1exMsg).diverges = false :=
  c1_amended_adoption c1exSt c2exSock c1exMsg "h2" 200 50 rfl (by decide)
    rfl rfl rfl

/-! ## C10: no validation in the piece handler -/

/-- C10: the piece handler performs no validation: even when the index is
not pending, the index is at or above `numPieces`, and the sending socket
never completed a handshake, a successfully written piece is still written
at offset `index · pieceSize` and the index still enters `have`. -/
theorem c10_piece_unchecked (st : NodeState) (f : FileMgr)
    (sock : SocketState) (i : Nat) (data : List Nat)
    (hopen : f.fileOpen = true)
    (hpending : i ∉ st.pendingPieces)
    (hrange : ∀ n, st.numPieces = some n → n ≤ i)
    (hsock : sock.peerId = none) :
    (handlePiece st f sock i data).file.content =
      overwrite f.content (i * f.pieceSize) data ∧
    i ∈ (handlePiece st f sock i data).node.havePieces := by
  have hw : f.writePiece i data =
      some { f with content := overwrite f.content (i * f.pieceSize) data } := by
    unfold FileMgr.writePiece
    rw [hopen]
    simp
  unfold handlePiece handlePieceCore
  rw [hw, hsock]
  dsimp only
  split
  · exact ⟨rfl, Finset.mem_insert_self _ _⟩
  · refine ⟨rfl, ?_⟩
    rw [runScheduler_have]
    exact Finset.mem_insert_self _ _

/-- C10 witness: a piece with an out-of-range index, not pending, from an
unidentified socket, still written and recorded. -/
theorem c10_piece_unchecked_witness :
    (handlePiece c1exSt ⟨50, true, 100, List.replicate 100 3⟩ c2exSock 9
        [7, 7]).file.content =
      overwrite (List.replicate 100 3) (9 * 50) [7, 7] ∧
    9 ∈ (handlePiece c1exSt ⟨50, true, 100, List.replicate 100 3⟩ c2exSock 9
        [7, 7]).node.havePieces :=
  c10_piece_unchecked c1exSt ⟨50, true, 100, List.replicate 100 3⟩ c2exSock 9
    [7, 7] rfl (by decide) (by decide) rfl

/-! ## C6: bookkeeping on a successfully written piece -/

/-- When the write succeeds, `_handlePiece`'s pre-completion phase yields:
the updated piece sets and byte counter, the written file, and the `have`
broadcast computed over a peer map `kp` that differs from the original only
in the sender's cleared busy flag — so `kp` preserves every key and
`connected` flag in both directions. -/
theorem handlePieceCore_some (st : NodeState) (f : FileMgr)
    (sock : SocketState) (i : Nat) (data : List Nat) (f2 : FileMgr)
    (hw : f.writePiece i data = some f2) :
    ∃ kp, handlePieceCore st f sock i data = some
      { node := { st with
          havePieces := insert i st.havePieces,
          missingPieces := st.missingPieces.erase i,
          pendingPieces := st.pendingPieces.erase i,
          bytesDownloaded := st.bytesDownloaded + data.length,
          knownPeers := kp },
        file := f2,
        sent := (kp.filter
            (fun p => p.2.connected && decide (some p.1 ≠ sock.peerId))).map
          (fun p => (Dest.peerSock p.1, OutMsg.haveMsg i)) } ∧
      (∀ pid, sock.peerId = some pid → pid ≠ "" →
        lookupPeer kp pid = (lookupPeer st.knownPeers pid).map
          (fun pi => { pi with busy := false })) ∧
      (∀ p ∈ st.knownPeers, ∃ q ∈ kp,
        q.1 = p.1 ∧ q.2.connected = p.2.connected) ∧
      (∀ q ∈ kp, ∃ p ∈ st.knownPeers,
        q.1 = p.1 ∧ q.2.connected = p.2.connected) := by
  unfold handlePieceCore
  rw [hw]
  rcases hsp : sock.peerId with _ | pid
  · refine ⟨st.knownPeers, rfl, ?_, ?_, ?_⟩
    · intro pid hpid
      exact absurd hpid (by simp)
    · exact fun p hp => ⟨p, hp, rfl, rfl⟩
    · exact fun q hq => ⟨q, hq, rfl, rfl⟩
  · by_cases hc : (pid != "" && hasPeer st.knownPeers pid) = true
    · refine ⟨updPeer st.knownPeers pid (fun pi => { pi with busy := false }),
        ?_, ?_, ?_, ?_⟩
      · dsimp only
        rw [hc]
        rfl
      · intro pid2 hpid2 hne
        obtain rfl : pid = pid2 := Option.some.inj hpid2
        exact lookup_updPeer_self _ _ _
      · intro p hp
        refine ⟨if p.1 = pid then (p.1, { p.2 with busy := false }) else p,
          ?_, ?_, ?_⟩
        · rw [updPeer_eq_map]
          exact List.mem_map_of_mem _ hp
        · split <;> rfl
        · split <;> rfl
      · intro q hq
        rw [updPeer_eq_map] at hq
        obtain ⟨p, hp, hpq⟩ := List.mem_map.mp hq
        refine ⟨p, hp, ?_, ?_⟩
        · rw [← hpq]
          split <;> rfl
        · rw [← hpq]
          split <;> rfl
    · have hcf : (pid != "" && hasPeer st.knownPeers pid) = false :=
        Bool.eq_false_iff.mpr hc
      refine ⟨st.knownPeers, ?_, ?_, ?_, ?_⟩
      · dsimp only
        rw [hcf]
        rfl
      · intro pid2 hpid2 hne
        obtain rfl : pid = pid2 := Option.some.inj hpid2
        have hhp : hasPeer st.knownPeers pid = false := by
          rcases Bool.and_eq_false_iff.mp hcf with h1 | h2
          · exact absurd (by simpa using h1) hne
          · exact h2
        rw [lookupPeer_none_of_hasPeer_false hhp]
        rfl
      · exact fun p hp => ⟨p, hp, rfl, rfl⟩
      · exact fun q hq => ⟨q, hq, rfl, rfl⟩

/-- C6: for every piece message whose decoded data is successfully written,
the handler adds the index to `have`, removes it from `missing` and
`pending`, clears the sender's busy flag (when the sender has a peer
record), adds the byte length to `bytesDownloaded`, and sends
`have {index}` to every other currently connected peer and never to the
sender. -/
theorem c6_piece_success_updates (st : NodeState) (f : FileMgr)
    (sock : SocketState) (i : Nat) (data : List Nat) (f2 : FileMgr)
    (hw : f.writePiece i data = some f2) :
    i ∈ (handlePiece st f sock i data).node.havePieces ∧
    i ∉ (handlePiece st f sock i data).node.missingPieces ∧
    i ∉ (handlePiece st f sock i data).node.pendingPieces ∧
    (handlePiece st f sock i data).node.bytesDownloaded =
      st.bytesDownloaded + data.length ∧
    (handlePiece st f sock i data).file = f2 ∧
    (∀ pid, sock.peerId = some pid → pid ≠ "" →
      ∃ r0, handlePieceCore st f sock i data = some r0 ∧
        lookupPeer r0.node.knownPeers pid =
          (lookupPeer st.knownPeers pid).map
            (fun pi => { pi with busy := false })) ∧
    (∀ p ∈ st.knownPeers, p.2.connected = true → some p.1 ≠ sock.peerId →
      (Dest.peerSock p.1, OutMsg.haveMsg i) ∈
        (handlePiece st f sock i data).sent) ∧
    (∀ pid, sock.peerId = some pid →
      (Dest.peerSock pid, OutMsg.haveMsg i) ∉
        (handlePiece st f sock i data).sent) := by
  obtain ⟨kp, hcore, hlook, hfwd, hbwd⟩ :=
    handlePieceCore_some st f sock i data f2 hw
  have hmemsent : ∀ p ∈ st.knownPeers, p.2.connected = true →
      some p.1 ≠ sock.peerId →
      (Dest.peerSock p.1, OutMsg.haveMsg i) ∈ ((kp.filter
        (fun p => p.2.connected && decide (some p.1 ≠ sock.peerId))).map
        (fun p => (Dest.peerSock p.1, OutMsg.haveMsg i))) := by
    intro p hp hconn hne
    obtain ⟨q, hq, hq1, hq2⟩ := hfwd p hp
    refine List.mem_map.mpr ⟨q, List.mem_filter.mpr ⟨hq, ?_⟩, by rw [hq1]⟩
    rw [hq2, hconn, hq1]
    simp [hne]
  have hnosender : ∀ pid, sock.peerId = some pid →
      (Dest.peerSock pid, OutMsg.haveMsg i) ∉ ((kp.filter
        (fun p => p.2.connected && decide (some p.1 ≠ sock.peerId))).map
        (fun p => (Dest.peerSock p.1, OutMsg.haveMsg i))) := by
    intro pid hpid hmem
    obtain ⟨q, hq, hqeq⟩ := List.mem_map.mp hmem
    have hq2 := (List.mem_filter.mp hq).2
    have hq1 : q.1 = pid := by
      have := congrArg Prod.fst hqeq
      simpa using this
    rw [hq1, hpid] at hq2
    simp at hq2
  unfold handlePiece
  rw [hcore]
  dsimp only
  split
  · refine ⟨Finset.mem_insert_self _ _, Finset.not_mem_erase _ _,
      Finset.not_mem_erase _ _, rfl, rfl, ?_, ?_, ?_⟩
    · intro pid hpid hne
      exact ⟨_, rfl, hlook pid hpid hne⟩
    · exact hmemsent
    · exact hnosender
  · refine ⟨?_, ?_, ?_, ?_, rfl, ?_, ?_, ?_⟩
    · rw [runScheduler_have]
      exact Finset.mem_insert_self _ _
    · rw [runScheduler_missing]
      exact Finset.not_mem_erase _ _
    · intro hmem
      have := runScheduler_pending _ hmem
      rcases Finset.mem_union.mp this with h1 | h2
      · exact Finset.not_mem_erase _ _ h1
      · exact Finset.not_mem_erase _ _ h2
    · rw [runScheduler_bytes]
    · intro pid hpid hne
      exact ⟨_, rfl, hlook pid hpid hne⟩
    · intro p hp hconn hne
      exact List.mem_append_left _ (hmemsent p hp hconn hne)
    · intro pid hpid hmem
      rcases List.mem_append.mp hmem with h1 | h2
      · exact hnosender pid hpid h1
      · obtain ⟨pid2, j, hj⟩ := runScheduler_sent _ _ h2
        simp at hj

/-- A second connected peer used by the C6 witness. -/
def c6exPeer2 : PeerInfo := freshPeer (some "10.0.0.3") (some 7003) true

/-- A leecher mid-download with two connected peers, piece 1 pending from
peer `b`. -/
def c6exSt : NodeState :=
  { c1exSt with
    missingPieces := ({1, 2} : Finset Nat)
    pendingPieces := ({1} : Finset Nat)
    numPieces := some 3
    fileSize := some 150
    knownPeers := [("bbbbbbbbbbbbbbbb", exPeer), ("dddddddddddddddd", c6exPeer2)] }

/-- The socket of peer `b`, the sender. -/
def c6exSock : SocketState :=
  { peerId := some "bbbbbbbbbbbbbbbb", isOutgoing := true,
    remoteAddress := some "10.0.0.1" }

/-- The file manager of the C6 witness. -/
def c6exFile : FileMgr := ⟨50, true, 150, List.replicate 150 0⟩

/-- C6 witness: receiving pending piece 1 from peer `b` with peer `d` also
connected. -/
theorem c6_piece_success_updates_witness :
    1 ∈ (handlePiece c6exSt c6exFile c6exSock 1 [5, 5]).node.havePieces ∧
    1 ∉ (handlePiece c6exSt c6exFile c6exSock 1 [5, 5]).node.missingPieces ∧
    1 ∉ (handlePiece c6exSt c6exFile c6exSock 1 [5, 5]).node.pendingPieces ∧
    (handlePiece c6exSt c6exFile c6exSock 1 [5, 5]).node.bytesDownloaded =
      c6exSt.bytesDownloaded + 2 ∧
    (handlePiece c6exSt c6exFile c6exSock 1 [5, 5]).file =
      { c6exFile with content := overwrite c6exFile.content 50 [5, 5] } ∧
    (∀ pid, c6exSock.peerId = some pid → pid ≠ "" →
      ∃ r0, handlePieceCore c6exSt c6exFile c6exSock 1 [5, 5] = some r0 ∧
        lookupPeer r0.node.knownPeers pid =
          (lookupPeer c6exSt.knownPeers pid).map
            (fun pi => { pi with busy := false })) ∧
    (∀ p ∈ c6exSt.knownPeers, p.2.connected = true →
      some p.1 ≠ c6exSock.peerId →
      (Dest.peerSock p.1, OutMsg.haveMsg 1) ∈
        (handlePiece c6exSt c6exFile c6exSock 1 [5, 5]).sent) ∧
    (∀ pid, c6exSock.peerId = some pid →
      (Dest.peerSock pid, OutMsg.haveMsg 1) ∉
        (handlePiece c6exSt c6exFile c6exSock 1 [5, 5]).sent) :=
  c6_piece_success_updates c6exSt c6exFile c6exSock 1 [5, 5]
    { c6exFile with content := overwrite c6exFile.content 50 [5, 5] } rfl

/-! ## C3: preservation of pending ⊆ missing -/

theorem runScheduler_inv (st : NodeState)
    (h : st.pendingPieces ⊆ st.missingPieces) :
    (runScheduler st).1.pendingPieces ⊆ (runScheduler st).1.missingPieces := by
  rw [runScheduler_missing]
  intro x hx
  rcases Finset.mem_union.mp (runScheduler_pending st hx) with h1 | h2
  · exact h h1
  · exact h2

theorem handleHandshake_inv (st : NodeState) (sock : SocketState)
    (msg : HandshakeMsg) (h : st.pendingPieces ⊆ st.missingPieces) :
    (handleHandshake st sock msg).node.pendingPieces ⊆
      (handleHandshake st sock msg).node.missingPieces := by
  obtain ⟨kp, hkp⟩ := upsertPeer_shape st sock msg
  unfold handleHandshake
  by_cases hid : msg.id = st.selfId
  · rw [if_pos hid]
    exact h
  · rw [if_neg hid]
    dsimp only
    rw [hkp]
    by_cases hseed : st.isSeed = true
    · dsimp only
      rw [if_pos hseed]
      split
      · exact h
      · rw [afterMeta_pendingPieces, afterMeta_missingPieces]
        exact h
    · dsimp only
      rw [if_neg hseed]
      cases hnh : normStr msg.fileHash with
      | none => exact h
      | some hv =>
        by_cases hdiv : ((normNat msg.fileSize).isSome
            && (normNat msg.pieceSize).isNone) = true
        · rw [if_pos hdiv]
          exact h
        · rw [if_neg hdiv]
          rw [afterMeta_pendingPieces, afterMeta_missingPieces]
          exact h.trans Finset.subset_union_left

theorem handleBitfield_inv (st : NodeState) (sock : SocketState)
    (pieces : List Nat) (h : st.pendingPieces ⊆ st.missingPieces) :
    (handleBitfield st sock pieces).node.pendingPieces ⊆
      (handleBitfield st sock pieces).node.missingPieces := by
  unfold handleBitfield
  cases hsp : sockPeer st sock with
  | none => exact h
  | some pid =>
    dsimp only
    exact runScheduler_inv _ h

theorem handleRequest_inv (st : NodeState) (f : FileMgr) (sock : SocketState)
    (i : Nat) (h : st.pendingPieces ⊆ st.missingPieces) :
    (handleRequest st f sock i).node.pendingPieces ⊆
      (handleRequest st f sock i).node.missingPieces := by
  unfold handleRequest
  split
  · exact h
  · split <;> exact h

theorem handlePieceCore_inv (st : NodeState) (f : FileMgr)
    (sock : SocketState) (i : Nat) (data : List Nat) (r : PResult)
    (hc : handlePieceCore st f sock i data = some r)
    (h : st.pendingPieces ⊆ st.missingPieces) :
    r.node.pendingPieces ⊆ r.node.missingPieces := by
  unfold handlePieceCore at hc
  cases hw : f.writePiece i data with
  | none =>
    rw [hw] at hc
    exact absurd hc (by simp)
  | some f2 =>
    rw [hw] at hc
    have hr : r.node.pendingPieces = st.pendingPieces.erase i ∧
        r.node.missingPieces = st.missingPieces.erase i := by
      rw [← Option.some.inj hc]
      rcases sock.peerId with _ | pid
      · exact ⟨rfl, rfl⟩
      · dsimp only
        split <;> exact ⟨rfl, rfl⟩
    rw [hr.1, hr.2]
    exact Finset.erase_subset_erase _ h

theorem handlePiece_inv (st : NodeState) (f : FileMgr) (sock : SocketState)
    (i : Nat) (data : List Nat) (h : st.pendingPieces ⊆ st.missingPieces) :
    (handlePiece st f sock i data).node.pendingPieces ⊆
      (handlePiece st f sock i data).node.missingPieces := by
  unfold handlePiece
  cases hc : handlePieceCore st f sock i data with
  | none => exact h
  | some r =>
    dsimp only
    have hri := handlePieceCore_inv st f sock i data r hc h
    split
    · exact hri
    · exact runScheduler_inv _ hri

theorem handleHave_inv (st : NodeState) (sock : SocketState) (i : Nat)
    (h : st.pendingPieces ⊆ st.missingPieces) :
    (handleHave st sock i).node.pendingPieces ⊆
      (handleHave st sock i).node.missingPieces := by
  unfold handleHave
  cases hsp : sockPeer st sock with
  | none => exact h
  | some pid =>
    dsimp only
    cases hlk : lookupPeer st.knownPeers pid with
    | none => exact h
    | some pi =>
      dsimp only
      split
      · exact runScheduler_inv _ h
      · exact h

theorem handlePeers_inv (st : NodeState)
    (ps : List (String × Option String × Option Nat))
    (h : st.pendingPieces ⊆ st.missingPieces) :
    (handlePeers st ps).1.pendingPieces ⊆
      (handlePeers st ps).1.missingPieces := h

theorem handleClose_inv (st : NodeState) (sock : SocketState) :
    (handleClose st sock).1.pendingPieces ⊆
      (handleClose st sock).1.missingPieces := by
  unfold handleClose
  dsimp only
  exact runScheduler_inv _ (Finset.empty_subset _)

theorem sendHandshakeEffect_inv (st : NodeState) (sock : SocketState)
    (h : st.pendingPieces ⊆ st.missingPieces) :
    (sendHandshakeEffect st sock).1.pendingPieces ⊆
      (sendHandshakeEffect st sock).1.missingPieces := by
  unfold sendHandshakeEffect
  dsimp only
  rcases sock.peerId with _ | pid
  · exact h
  · dsimp only
    split <;> exact h

/-- C3: `pending ⊆ missing` at all times: both piece sets start empty on a
leecher, the inclusion holds in a seed's initial state, every dispatched
event (scheduler-driven requests, piece receipt, connection close, and all
other handlers) preserves it, and hence it holds in every reachable
state. -/
theorem c3_pending_subset_missing :
    (∀ (id : String) (port : Nat) (name : String),
      (leecherInit id port name).pendingPieces = ∅ ∧
      (leecherInit id port name).missingPieces = ∅) ∧
    (∀ (id : String) (port : Nat) (name : String) (size : Nat) (h : String),
      (seedInit id port name size h).pendingPieces ⊆
        (seedInit id port name size h).missingPieces) ∧
    (∀ st st2 : NodeState, Step st st2 →
      st.pendingPieces ⊆ st.missingPieces →
      st2.pendingPieces ⊆ st2.missingPieces) ∧
    (∀ init st : NodeState, Reachable init st →
      init.pendingPieces ⊆ init.missingPieces →
      st.pendingPieces ⊆ st.missingPieces) := by
  have hstep : ∀ st st2 : NodeState, Step st st2 →
      st.pendingPieces ⊆ st.missingPieces →
      st2.pendingPieces ⊆ st2.missingPieces := by
    intro st st2 hs h
    cases hs with
    | handshake sock msg => exact handleHandshake_inv st sock msg h
    | bitfield sock pieces => exact handleBitfield_inv st sock pieces h
    | request f sock i => exact handleRequest_inv st f sock i h
    | pieceStep f sock i data => exact handlePiece_inv st f sock i data h
    | haveStep sock i => exact handleHave_inv st sock i h
    | peersStep ps => exact handlePeers_inv st ps h
    | closeStep sock => exact handleClose_inv st sock
    | hsSend sock => exact sendHandshakeEffect_inv st sock h
  refine ⟨fun id port name => ⟨rfl, rfl⟩,
    fun id port name size h => Finset.empty_subset _, hstep, ?_⟩
  intro init st hr h
  induction hr with
  | refl => exact h
  | step hr2 hs ih => exact hstep _ _ hs ih

/-- C3 witness: the invariant evaluated at a freshly started leecher,
reachable from itself. -/
theorem c3_pending_subset_missing_witness :
    (leecherInit "aaaaaaaaaaaaaaaa" 6881 "out.bin").pendingPieces ⊆
      (leecherInit "aaaaaaaaaaaaaaaa" 6881 "out.bin").missingPieces :=
  c3_pending_subset_missing.2.2.2
    (leecherInit "aaaaaaaaaaaaaaaa" 6881 "out.bin")
    (leecherInit "aaaaaaaaaaaaaaaa" 6881 "out.bin")
    Reachable.refl (by decide)

/-! ## C7: wrong-file rejection by a seed -/

/-- C7: a seed receiving a handshake whose non-null file hash differs from
its own closes the connection and removes the peer record: afterwards the
known-peers map is exactly the original map with the remote id erased (in
particular the remote id is absent), nothing is sent, and every other piece
of node state is unchanged. -/
theorem c7_wrong_hash_rejected (st : NodeState) (sock : SocketState)
    (msg : HandshakeMsg) (h hr : String)
    (hseed : st.isSeed = true) (hid : msg.id ≠ st.selfId)
    (hself : st.fileHash = some h) (hrem : normStr msg.fileHash = some hr)
    (hne : hr ≠ h) :
    (handleHandshake st sock msg).closed = true ∧
    (handleHandshake st sock msg).node.knownPeers =
      erasePeer st.knownPeers msg.id ∧
    lookupPeer (handleHandshake st sock msg).node.knownPeers msg.id = none ∧
    (∀ pid, pid ≠ msg.id →
      lookupPeer (handleHandshake st sock msg).node.knownPeers pid =
        lookupPeer st.knownPeers pid) ∧
    (handleHandshake st sock msg).sent = [] ∧
    (handleHandshake st sock msg).node.fileName = st.fileName ∧
    (handleHandshake st sock msg).node.fileSize = st.fileSize ∧
    (handleHandshake st sock msg).node.fileHash = st.fileHash ∧
    (handleHandshake st sock msg).node.pieceSize = st.pieceSize ∧
    (handleHandshake st sock msg).node.numPieces = st.numPieces ∧
    (handleHandshake st sock msg).node.isSeed = true ∧
    (handleHandshake st sock msg).node.havePieces = st.havePieces ∧
    (handleHandshake st sock msg).node.missingPieces = st.missingPieces ∧
    (handleHandshake st sock msg).node.pendingPieces = st.pendingPieces ∧
    (handleHandshake st sock msg).node.bytesDownloaded = st.bytesDownloaded := by
  obtain ⟨kp, hkp⟩ := upsertPeer_shape st sock msg
  have herase : erasePeer kp msg.id = erasePeer st.knownPeers msg.id := by
    have h0 := upsertPeer_erase st sock msg
    rwa [hkp] at h0
  have hres : handleHandshake st sock msg =
      { node := { st with knownPeers := erasePeer kp msg.id },
        sock := { sock with peerId := some msg.id },
        closed := true, sent := [] } := by
    simp only [handleHandshake, if_neg hid, hkp, hseed, hrem, hself]
    simp [hne]
  rw [hres, herase]
  refine ⟨rfl, rfl, lookup_erasePeer_self _ _, ?_, rfl, rfl, rfl, rfl, rfl,
    rfl, hseed, rfl, rfl, rfl, rfl⟩
  intro pid hpid
  exact lookup_erasePeer_ne _ _ _ hpid

/-- Seed test state holding hash `"h1"` with one known peer. -/
def c7exSt : NodeState :=
  { seedInit "aaaaaaaaaaaaaaaa" 6881 "f.bin" 100 "h1" with
    knownPeers := [("bbbbbbbbbbbbbbbb", exPeer)] }

/-- A handshake from a third peer advertising a different file hash. -/
def c7exMsg : HandshakeMsg :=
  { id := "cccccccccccccccc", fileName := some "f.bin", fileSize := some 100,
    fileHash := some "h2", pieceSize := some 100, port := some 7002 }

/-- C7 witness: the wrong-hash handshake on the concrete seed state. -/
theorem c7_wrong_hash_rejected_witness :
    (handleHandshake c7exSt c2exSock c7exMsg).closed = true ∧
    lookupPeer (handleHandshake c7exSt c2exSock c7exMsg).node.knownPeers
      "cccccccccccccccc" = none := by
  have h := c7_wrong_hash_rejected c7exSt c2exSock c7exMsg "h1" "h2"
    (by decide) (by decide) (by decide) (by decide) (by decide)
  exact ⟨h.1, h.2.2.1⟩

/-! ## C9: bitfield / have before a completed handshake -/

/-- C9: a `bitfield` or `have` arriving on a socket with no peer id, or with
a peer id absent from the known-peers map, is dropped: no node, peer or
socket state changes, nothing is sent, the connection stays open. -/
theorem c9_unknown_socket_noop (st : NodeState) (sock : SocketState)
    (pieces : List Nat) (i : Nat)
    (h : sock.peerId = none ∨
      ∃ pid, sock.peerId = some pid ∧ hasPeer st.knownPeers pid = false) :
    handleBitfield st sock pieces =
      { node := st, sock := sock, closed := false, sent := [] } ∧
    handleHave st sock i =
      { node := st, sock := sock, closed := false, sent := [] } := by
  have hg : sockPeer st sock = none := by
    rcases h with h | ⟨pid, hp, hk⟩
    · simp [sockPeer, h]
    · simp [sockPeer, hp, hk]
  constructor
  · unfold handleBitfield
    rw [hg]
  · unfold handleHave
    rw [hg]

/-- A socket labelled with a peer id that is not in the known-peers map. -/
def c9exSock : SocketState :=
  { peerId := some "eeeeeeeeeeeeeeee", isOutgoing := false,
    remoteAddress := some "10.0.0.9" }

/-- C9 witness: a bitfield and a have from a socket whose advertised peer id
was never handshaken. -/
theorem c9_unknown_socket_noop_witness :
    handleBitfield c2exSt c9exSock [1, 2] =
      { node := c2exSt, sock := c9exSock, closed := false, sent := [] } ∧
    handleHave c2exSt c9exSock 0 =
      { node := c2exSt, sock := c9exSock, closed := false, sent := [] } :=
  c9_unknown_socket_noop c2exSt c9exSock [1, 2] 0
    (Or.inr ⟨"eeeeeeeeeeeeeeee", rfl, by decide⟩)

/-- C4 witness: spec scenario 1's seed file — 100 bytes, 64-byte pieces —
has a 36-byte final piece, read exactly; a closed manager and the
out-of-range index 2 fail; index 2 on a 128-byte piece-aligned file gives
the empty buffer. -/
theorem c4_amended_readPiece_witness :
    (FileMgr.readPiece ⟨64, true, 100, List.replicate 100 7⟩ 1 =
        some ((List.replicate 100 7).drop 64) ∧
      ∀ bs, FileMgr.readPiece ⟨64, true, 100, List.replicate 100 7⟩ 1 = some bs →
        bs.length = 36) ∧
    FileMgr.readPiece ⟨64, false, 100, List.replicate 100 7⟩ 0 = none ∧
    FileMgr.readPiece ⟨64, true, 100, List.replicate 100 7⟩ 2 = none ∧
    FileMgr.readPiece ⟨64, true, 128, List.replicate 128 7⟩ 2 = some [] := by
  have h := c4_amended_readPiece
  refine ⟨?_, ?_, ?_, ?_⟩
  · have h1 := h.1 ⟨64, true, 100, List.replicate 100 7⟩ 1 2 rfl (by decide)
      (by decide) (by decide) (by decide)
    refine ⟨?_, ?_⟩
    · rw [h1.1]; decide
    · intro bs hbs
      have := h1.2 bs hbs
      simpa using this
  · exact h.2.1 ⟨64, false, 100, List.replicate 100 7⟩ 0 rfl
  · exact h.2.2.1 ⟨64, true, 100, List.replicate 100 7⟩ 2 (by decide)
  · exact h.2.2.2 ⟨64, true, 128, List.replicate 128 7⟩ 2 rfl (by decide)

end P2P
